import Mathlib

/-!
Shallow embedding of wlstreamer's `src/main.rs` (the selection-and-supervision
loop of the screen-recording controller).

Modelling conventions:
* Pure data transformations are embedded as Lean functions with the same names
  as the Rust functions.
* `std::collections::HashMap<Resolution, usize>` is embedded as an association
  list with first-match lookup (`mapGet`) and replace-or-append insertion
  (`mapInsert`); keys are compared by `Resolution` equality (width and height).
* Every compositor IPC result (`swaymsg -t get_outputs` / `get_workspaces`)
  and each child-process spawn/kill outcome is supplied explicitly through an
  `Env` record; a Rust `panic!` / `expect` / propagated `Err` is modelled as
  `Except.error`, so an `.error` result means the whole controller aborts.
* Spawned children are recorded as `ProcSpec` values (program plus argument
  list, mirroring the argument arrays passed to `Command::new`), and the side
  effects of one pass of the event loop are recorded as a list of `Effect`s
  (one `Effect.kill` per terminated child, one `Effect.spawn` per started one).
-/

structure SwayScreenRect where
  x : Nat
  y : Nat
  width : Nat
  height : Nat
  deriving DecidableEq, Repr

structure SwayWorkspace where
  name : String
  focus : List Nat
  output : String
  focused : Bool
  rect : SwayScreenRect
  visible : Bool
  num : Nat
  deriving DecidableEq, Repr

structure SwayOutputMode where
  width : Nat
  height : Nat
  refresh : Nat
  deriving DecidableEq, Repr

structure SwayOutput where
  name : String
  rect : SwayScreenRect
  current_mode : SwayOutputMode
  deriving DecidableEq, Repr

/-- Resolution as in the source: `height` first, `width` second; equality
compares width and height only (the derived `Hash`/`Eq` on both fields). -/
structure Resolution where
  height : Nat
  width : Nat
  deriving DecidableEq, Repr

/-- The `Config` struct of `main.rs`.  `outputs` is the device-allocation
table `HashMap<Resolution, usize>`, embedded as an association list. -/
structure Config where
  current_output : String
  devices_from : Nat
  last_device_index : Nat
  screen_blacklist : List String
  workspace_blacklist : List Nat
  verbose : Bool
  resolutions : List Resolution
  outputs : List (Resolution × Nat)
  deriving DecidableEq, Repr

/-- Lookup (`HashMap::get`) on the embedded table: first matching key. -/
def mapGet (m : List (Resolution × Nat)) (r : Resolution) : Option Nat :=
  match m with
  | [] => none
  | (k, v) :: rest => if k = r then some v else mapGet rest r

/-- Insertion (`HashMap::insert`) on the embedded table: replace the binding if the key is
present, append it otherwise. -/
def mapInsert (m : List (Resolution × Nat)) (r : Resolution) (v : Nat) :
    List (Resolution × Nat) :=
  match m with
  | [] => [(r, v)]
  | (k, w) :: rest =>
      if k = r then (r, v) :: rest else (k, w) :: mapInsert rest r v

/-- A spawned child process: the program and the argument array passed to
`Command::new(..).args(..)` in the source. -/
structure ProcSpec where
  program : String
  args : List String
  deriving DecidableEq, Repr

/-- One observable process-management side effect of the controller. -/
inductive Effect where
  | kill (p : ProcSpec)
  | spawn (p : ProcSpec)
  deriving DecidableEq, Repr

/-- Embedding of `stream_black` (main.rs lines 102-135): spawn one ffmpeg generating black
frames at `config.resolutions[0]` (the canonical resolution) at 25 fps into
`/dev/video{devices_from}`, and set `current_output` to the empty string.
`config.resolutions` is non-empty in every state the source reaches this code
in (`get_resolutions` always returns a non-empty list), so the panicking
index `resolutions[0]` is embedded as `headD`. -/
def stream_black (config : Config) : Config × List ProcSpec :=
  let r := config.resolutions.headD ⟨0, 0⟩
  let cmd : ProcSpec :=
    ⟨"ffmpeg",
      ["-i",
       "color=c=black:s=" ++ toString r.width ++ "x" ++ toString r.height ++ ":r=25/1",
       "-vcodec", "rawvideo", "-pix_fmt", "yuyv422", "-f", "v4l2",
       "/dev/video" ++ toString config.devices_from]⟩
  ({ config with current_output := "" }, [cmd])

/-- The device-allocation step of `record_screen` (main.rs lines 143-150):
return the existing index for a known resolution, otherwise increment
`last_device_index` and bind the resolution to the new index. -/
def allocate (config : Config) (resolution : Resolution) : Nat × Config :=
  match mapGet config.outputs resolution with
  | some device_number => (device_number, config)
  | none =>
      let idx := config.last_device_index + 1
      (idx,
        { config with
            last_device_index := idx,
            outputs := mapInsert config.outputs resolution idx })

/-- The ffmpeg video-filter string of the upscaler in `record_screen`
(main.rs lines 204-206), with both the scale and the pad taken from the
canonical resolution `config.resolutions[0]`. -/
def scaleFilter (w h : Nat) : String :=
  "scale=" ++ toString w ++ ":" ++ toString h ++
    ":force_original_aspect_ratio=decrease,pad=" ++ toString w ++ ":" ++
    toString h ++ ":(ow-iw)/2:(oh-ih)/2,setsar=1"

/-- Embedding of `record_screen` (main.rs lines 137-226): allocate a device for the
output's current resolution, spawn the wf-recorder capture into that device,
and, exactly when the device differs from `devices_from`, additionally spawn
the ffmpeg scaler reading the device and writing letterboxed canonical-size
frames into `/dev/video{devices_from}`. -/
def record_screen (config : Config) (output : SwayOutput) :
    Config × List ProcSpec :=
  let resolution : Resolution :=
    ⟨output.current_mode.height, output.current_mode.width⟩
  let dc := allocate config resolution
  let device_number := dc.1
  let config := dc.2
  let config := { config with current_output := output.name }
  let canon := config.resolutions.headD ⟨0, 0⟩
  let recorder : ProcSpec :=
    ⟨"wf-recorder",
      ["--muxer=v4l2", "--codec=rawvideo", "--pixel-format=yuyv422",
       "-o" ++ output.name, "--file=/dev/video" ++ toString device_number]⟩
  if device_number ≠ config.devices_from then
    let upscaler : ProcSpec :=
      ⟨"ffmpeg",
        ["-i", "/dev/video" ++ toString device_number,
         "-vcodec", "rawvideo", "-pix_fmt", "yuyv422", "-f", "v4l2",
         "-vf", scaleFilter canon.width canon.height,
         "/dev/video" ++ toString config.devices_from]⟩
    (config, [recorder, upscaler])
  else
    (config, [recorder])

/-- The itertools `unique()` adaptor: deduplicate keeping the first occurrence of each
element, preserving order (structural recursion over the list with an
accumulator of already-seen elements). -/
def uniqueAux (seen : List Resolution) : List Resolution → List Resolution
  | [] => []
  | r :: rest =>
      if r ∈ seen then uniqueAux seen rest
      else r :: uniqueAux (r :: seen) rest

/-- The itertools `unique()` adaptor as used in `get_resolutions`. -/
def uniqueRes (l : List Resolution) : List Resolution :=
  uniqueAux [] l

/-- The fold of `get_resolutions` (main.rs lines 274-291): componentwise
maximum over the resolution list, starting from `{width: 0, height: 0}`. -/
def combined_resolution (resolutions : List Resolution) : Resolution :=
  resolutions.foldl
    (fun acc r =>
      ⟨if acc.height > r.height then acc.height else r.height,
       if acc.width > r.width then acc.width else r.width⟩)
    ⟨0, 0⟩

/-- Embedding of `get_resolutions` (main.rs lines 259-301), as a pure function of the
`get_outputs` snapshot: the distinct output resolutions with the combined
(canonical) resolution inserted at the front, deduplicated again. -/
def get_resolutions (outputs : List SwayOutput) : List Resolution :=
  let resolutions :=
    uniqueRes (outputs.map (fun o => ⟨o.current_mode.height, o.current_mode.width⟩))
  uniqueRes (combined_resolution resolutions :: resolutions)

/-- The filter predicate of `get_valid_screens_for_recording`
(main.rs lines 322-332): visible, output not screen-blacklisted, workspace
number not workspace-blacklisted. -/
def validWorkspace (config : Config) (w : SwayWorkspace) : Bool :=
  w.visible &&
    !(config.screen_blacklist.any (fun screen => screen == w.output)) &&
    !(config.workspace_blacklist.any (fun num => num == w.num))

/-- The sort relation of `get_valid_screens_for_recording` (main.rs lines
341-349).  The Rust comparator returns `Less` iff `a.focused && !b.focused`,
`Equal` iff `a.focused == b.focused`, and `Greater` otherwise;
`slice::sort_by` is a stable ascending sort, embedded as `List.mergeSort`
with `le a b` iff the comparator does not return `Greater`, i.e.
`a.focused || !b.focused`. -/
def focusedLE (a b : SwayWorkspace) : Bool :=
  a.focused || !b.focused

/-- Embedding of `get_valid_screens_for_recording` (main.rs lines 303-352), as a pure
function of the `get_workspaces` snapshot: filter, then stable-sort
focused-first. -/
def get_valid_screens_for_recording (config : Config)
    (workspaces : List SwayWorkspace) : List SwayWorkspace :=
  (workspaces.filter (validWorkspace config)).mergeSort focusedLE

/-- Embedding of `get_output` (main.rs lines 249-257), as a pure function of the fresh
`get_outputs` snapshot: the first output with the requested name; `none`
stands for the `panic!("Could not find output")`. -/
def get_output (outputs : List SwayOutput) (screen : String) :
    Option SwayOutput :=
  outputs.find? (fun o => o.name == screen)

/-- The startup initialization of `main` (main.rs lines 399-403): store the
resolution list, bind the canonical resolution `resolutions[0]` to
`devices_from` in the allocation table, and reset `last_device_index` to
`devices_from`. -/
def startupInit (config : Config) (outputs : List SwayOutput) : Config :=
  let resolutions := get_resolutions outputs
  { config with
      resolutions := resolutions,
      outputs := mapInsert config.outputs (resolutions.headD ⟨0, 0⟩)
        config.devices_from,
      last_device_index := config.devices_from }

/-- Startup (main.rs lines 399-410): initialize the allocation state, then
start the first pipeline — black if no valid screen, otherwise record the
first valid screen's output (aborting, like the source's `panic!`, when that
output name is absent from the outputs snapshot).  Both output queries during
startup are modelled with the same snapshot `outputs`. -/
def startup (config : Config) (outputs : List SwayOutput)
    (workspaces : List SwayWorkspace) :
    Except String (Config × List ProcSpec) :=
  let config := startupInit config outputs
  match get_valid_screens_for_recording config workspaces with
  | [] => .ok (stream_black config)
  | w :: _ =>
      match get_output outputs w.output with
      | none => .error "Could not find output"
      | some o => .ok (record_screen config o)

/-- The `Config` value `main` builds before argument parsing fills in the
blacklists and `devices_from` (main.rs lines 355-364). -/
def mkInitialConfig (devices_from : Nat) (screen_blacklist : List String)
    (workspace_blacklist : List Nat) (verbose : Bool) : Config :=
  { current_output := "",
    devices_from := devices_from,
    last_device_index := 0,
    screen_blacklist := screen_blacklist,
    workspace_blacklist := workspace_blacklist,
    verbose := verbose,
    resolutions := [],
    outputs := [] }

/-- The environment of one pass of the event loop: the results of the two
compositor queries the pass may issue, and whether process kills and spawns
succeed.  An `.error` in a query stands for any of: compositor unreachable,
non-UTF-8 output, or invalid JSON (all handled by `expect`, i.e. a panic, in
the source). -/
structure Env where
  workspacesResult : Except String (List SwayWorkspace)
  outputsResult : Except String (List SwayOutput)
  killOk : Bool
  spawnOk : Bool
  deriving Repr

/-- One pass of the event loop (main.rs lines 425-449), run for one received
focus-change line.  Mirrors the source order: query workspaces (panic on IPC
failure); short-circuit iff the valid-screen list is non-empty and its head's
output equals `current_output`; otherwise kill every owned process (panic on
kill failure), then spawn the black pipeline or re-resolve the target output
(panic when absent) and spawn its recording pipeline (panic on spawn
failure). -/
def notifStep (env : Env) (config : Config) (recorders : List ProcSpec) :
    Except String (Config × List ProcSpec × List Effect) :=
  match env.workspacesResult with
  | .error e => .error e
  | .ok ws =>
      let valid_screens := get_valid_screens_for_recording config ws
      let shortCircuit : Bool :=
        match valid_screens with
        | [] => false
        | w :: _ => w.output == config.current_output
      if shortCircuit then
        .ok (config, recorders, [])
      else if !env.killOk && !recorders.isEmpty then
        .error "kill failed"
      else
        let kills := recorders.map Effect.kill
        match valid_screens with
        | [] =>
            if env.spawnOk then
              let cp := stream_black config
              .ok (cp.1, cp.2, kills ++ cp.2.map Effect.spawn)
            else .error "spawn failed: ffmpeg"
        | w :: _ =>
            match env.outputsResult with
            | .error e => .error e
            | .ok outs =>
                match get_output outs w.output with
                | none => .error "Could not find output"
                | some o =>
                    if env.spawnOk then
                      let cp := record_screen config o
                      .ok (cp.1, cp.2, kills ++ cp.2.map Effect.spawn)
                    else .error "spawn failed: wf-recorder"

/-- One successful controller transition: some environment lets a pass of the
event loop complete without aborting. -/
inductive Step : Config × List ProcSpec → Config × List ProcSpec → Prop where
  | notif (env : Env) (s t : Config × List ProcSpec) (acts : List Effect)
      (h : notifStep env s.1 s.2 = .ok (t.1, t.2, acts)) : Step s t

/-- States of the controller reachable from a completed startup. -/
inductive Reachable : Config × List ProcSpec → Prop where
  | start (devices_from : Nat) (sbl : List String) (wbl : List Nat)
      (verbose : Bool) (outs : List SwayOutput) (ws : List SwayWorkspace)
      (s : Config × List ProcSpec)
      (h : startup (mkInitialConfig devices_from sbl wbl verbose) outs ws
            = .ok s) : Reachable s
  | step (s t : Config × List ProcSpec) (hr : Reachable s) (hs : Step s t) :
      Reachable t



/-! ### Basic lemmas about the embedded map and deduplication -/

theorem mapGet_mapInsert_self (m : List (Resolution × Nat)) (r : Resolution)
    (v : Nat) : mapGet (mapInsert m r v) r = some v := by
  induction m with
  | nil => simp [mapInsert, mapGet]
  | cons p rest ih =>
      obtain ⟨k, w⟩ := p
      by_cases hk : k = r
      · simp [mapInsert, hk, mapGet]
      · simp [mapInsert, hk, mapGet, ih]

theorem mapGet_mapInsert_ne (m : List (Resolution × Nat)) (r r' : Resolution)
    (v : Nat) (h : r' ≠ r) : mapGet (mapInsert m r v) r' = mapGet m r' := by
  have hrr : ¬(r = r') := fun hh => h hh.symm
  induction m with
  | nil => simp [mapInsert, mapGet, hrr]
  | cons p rest ih =>
      obtain ⟨k, w⟩ := p
      by_cases hk : k = r
      · subst hk
        simp only [mapInsert, if_pos rfl, mapGet, if_neg hrr]
      · simp only [mapInsert, if_neg hk, mapGet]
        by_cases hk' : k = r'
        · simp [hk']
        · simp [hk', ih]

theorem mem_uniqueAux (x : Resolution) :
    ∀ (l seen : List Resolution),
      x ∈ uniqueAux seen l ↔ x ∈ l ∧ x ∉ seen := by
  intro l
  induction l with
  | nil => intro seen; simp [uniqueAux]
  | cons r rest ih =>
      intro seen
      by_cases hr : r ∈ seen
      · rw [uniqueAux, if_pos hr, ih]
        constructor
        · rintro ⟨hx, hns⟩
          exact ⟨List.mem_cons_of_mem _ hx, hns⟩
        · rintro ⟨hx, hns⟩
          rcases List.mem_cons.mp hx with h1 | h1
          · exact absurd (h1 ▸ hr) hns
          · exact ⟨h1, hns⟩
      · rw [uniqueAux, if_neg hr]
        constructor
        · intro hx
          rcases List.mem_cons.mp hx with h1 | h1
          · exact ⟨List.mem_cons.mpr (Or.inl h1), fun hc => hr (h1 ▸ hc)⟩
          · obtain ⟨h2, h3⟩ := (ih (r :: seen)).mp h1
            exact ⟨List.mem_cons_of_mem _ h2,
              fun hc => h3 (List.mem_cons_of_mem _ hc)⟩
        · rintro ⟨hx, hns⟩
          rcases List.mem_cons.mp hx with h1 | h1
          · exact List.mem_cons.mpr (Or.inl h1)
          · by_cases hxr : x = r
            · exact List.mem_cons.mpr (Or.inl hxr)
            · refine List.mem_cons_of_mem _ ((ih (r :: seen)).mpr ⟨h1, ?_⟩)
              intro hc
              rcases List.mem_cons.mp hc with h2 | h2
              · exact hxr h2
              · exact hns h2

theorem mem_uniqueRes (x : Resolution) (l : List Resolution) :
    x ∈ uniqueRes l ↔ x ∈ l := by
  simp [uniqueRes, mem_uniqueAux]

/-! ### Lemmas about folded maxima (for the canonical resolution) -/

theorem if_gt_eq_max (a b : Nat) : (if a > b then a else b) = Nat.max a b := by
  show _ = max a b
  rw [max_def]
  split <;> split <;> omega

theorem nat_max_choice (a b : Nat) : Nat.max a b = a ∨ Nat.max a b = b :=
  max_choice a b

theorem foldl_max_le_iff (l : List Nat) (a n : Nat) :
    l.foldl Nat.max a ≤ n ↔ a ≤ n ∧ ∀ x ∈ l, x ≤ n := by
  induction l generalizing a with
  | nil => simp
  | cons x l ih =>
      simp only [List.foldl_cons, ih, Nat.max_le, List.mem_cons]
      constructor
      · rintro ⟨⟨ha, hx⟩, hl⟩
        refine ⟨ha, fun y hy => ?_⟩
        rcases hy with h | h
        · exact h ▸ hx
        · exact hl y h
      · rintro ⟨ha, hl⟩
        exact ⟨⟨ha, hl x (Or.inl rfl)⟩, fun y hy => hl y (Or.inr hy)⟩

theorem le_foldl_max (l : List Nat) (a : Nat) : a ≤ l.foldl Nat.max a :=
  ((foldl_max_le_iff l a _).mp le_rfl).1

theorem mem_le_foldl_max (l : List Nat) (a x : Nat) (hx : x ∈ l) :
    x ≤ l.foldl Nat.max a :=
  ((foldl_max_le_iff l a _).mp le_rfl).2 x hx

theorem foldl_max_mem (l : List Nat) (a : Nat) :
    l.foldl Nat.max a = a ∨ l.foldl Nat.max a ∈ l := by
  induction l generalizing a with
  | nil => exact Or.inl rfl
  | cons x l ih =>
      rw [List.foldl_cons]
      rcases ih (Nat.max a x) with h | h
      · rcases nat_max_choice a x with hm | hm
        · exact Or.inl (by rw [h, hm])
        · refine Or.inr (List.mem_cons.mpr (Or.inl ?_))
          rw [h, hm]
      · exact Or.inr (List.mem_cons_of_mem _ h)

theorem foldl_max_congr_mem (l₁ l₂ : List Nat)
    (h : ∀ x, x ∈ l₁ ↔ x ∈ l₂) :
    l₁.foldl Nat.max 0 = l₂.foldl Nat.max 0 := by
  apply Nat.le_antisymm
  · exact (foldl_max_le_iff l₁ 0 _).mpr
      ⟨Nat.zero_le _, fun x hx => mem_le_foldl_max l₂ 0 x ((h x).mp hx)⟩
  · exact (foldl_max_le_iff l₂ 0 _).mpr
      ⟨Nat.zero_le _, fun x hx => mem_le_foldl_max l₁ 0 x ((h x).mpr hx)⟩

theorem combined_resolution_eq (l : List Resolution) :
    combined_resolution l =
      ⟨(l.map (fun r => r.height)).foldl Nat.max 0,
       (l.map (fun r => r.width)).foldl Nat.max 0⟩ := by
  have step : ∀ (rest : List Resolution) (a : Resolution),
      rest.foldl
          (fun acc r =>
            (⟨if acc.height > r.height then acc.height else r.height,
              if acc.width > r.width then acc.width else r.width⟩ : Resolution))
          a =
        ⟨(rest.map (fun r => r.height)).foldl Nat.max a.height,
         (rest.map (fun r => r.width)).foldl Nat.max a.width⟩ := by
    intro rest
    induction rest with
    | nil => intro a; simp
    | cons x rest ih =>
        intro a
        rw [List.foldl_cons, ih, List.map_cons, List.map_cons,
          List.foldl_cons, List.foldl_cons]
        simp [if_gt_eq_max]
  exact step l ⟨0, 0⟩

/-! ### The canonical resolution as a maximum -/

theorem get_resolutions_headD (outs : List SwayOutput) :
    (get_resolutions outs).headD ⟨0, 0⟩ =
      combined_resolution
        (uniqueRes (outs.map fun o => ⟨o.current_mode.height, o.current_mode.width⟩)) := by
  simp [get_resolutions, uniqueRes, uniqueAux]

theorem get_resolutions_headD_eq (outs : List SwayOutput) :
    (get_resolutions outs).headD ⟨0, 0⟩ =
      ⟨(outs.map fun o => o.current_mode.height).foldl Nat.max 0,
       (outs.map fun o => o.current_mode.width).foldl Nat.max 0⟩ := by
  rw [get_resolutions_headD, combined_resolution_eq]
  have hH := foldl_max_congr_mem
      ((uniqueRes (outs.map fun o => ⟨o.current_mode.height, o.current_mode.width⟩)).map
        fun r => r.height)
      (outs.map fun o => o.current_mode.height) ?_
  have hW := foldl_max_congr_mem
      ((uniqueRes (outs.map fun o => ⟨o.current_mode.height, o.current_mode.width⟩)).map
        fun r => r.width)
      (outs.map fun o => o.current_mode.width) ?_
  · rw [hH, hW]
  · intro x
    simp only [List.mem_map, mem_uniqueRes]
    constructor
    · rintro ⟨r, ⟨o, ho, rfl⟩, rfl⟩
      exact ⟨o, ho, rfl⟩
    · rintro ⟨o, ho, rfl⟩
      exact ⟨⟨o.current_mode.height, o.current_mode.width⟩, ⟨o, ho, rfl⟩, rfl⟩
  · intro x
    simp only [List.mem_map, mem_uniqueRes]
    constructor
    · rintro ⟨r, ⟨o, ho, rfl⟩, rfl⟩
      exact ⟨o, ho, rfl⟩
    · rintro ⟨o, ho, rfl⟩
      exact ⟨⟨o.current_mode.height, o.current_mode.width⟩, ⟨o, ho, rfl⟩, rfl⟩

/-- Claim C3: for every non-empty list of outputs, the canonical resolution
computed at startup (the head of `get_resolutions`) has width the maximum
width over all outputs' current resolutions and height the maximum height
(each bound is attained by some output), and it is the same for every
permutation of the input list. -/
theorem canonical_resolution_max (outs : List SwayOutput) (h : outs ≠ []) :
    (∀ o ∈ outs,
        o.current_mode.width ≤ ((get_resolutions outs).headD ⟨0, 0⟩).width ∧
        o.current_mode.height ≤ ((get_resolutions outs).headD ⟨0, 0⟩).height) ∧
    (∃ o ∈ outs,
        ((get_resolutions outs).headD ⟨0, 0⟩).width = o.current_mode.width) ∧
    (∃ o ∈ outs,
        ((get_resolutions outs).headD ⟨0, 0⟩).height = o.current_mode.height) ∧
    (∀ outs' : List SwayOutput, outs'.Perm outs →
        (get_resolutions outs').headD ⟨0, 0⟩ =
          (get_resolutions outs).headD ⟨0, 0⟩) := by
  obtain ⟨o0, ho0⟩ : ∃ o, o ∈ outs := by
    cases outs with
    | nil => exact absurd rfl h
    | cons a l => exact ⟨a, List.mem_cons_self a l⟩
  rw [get_resolutions_headD_eq]
  refine ⟨?_, ?_, ?_, ?_⟩
  · intro o ho
    constructor
    · exact mem_le_foldl_max _ 0 _ (List.mem_map.mpr ⟨o, ho, rfl⟩)
    · exact mem_le_foldl_max _ 0 _ (List.mem_map.mpr ⟨o, ho, rfl⟩)
  · rcases foldl_max_mem (outs.map fun o => o.current_mode.width) 0 with h0 | hmem
    · refine ⟨o0, ho0, ?_⟩
      have hle := mem_le_foldl_max (outs.map fun o => o.current_mode.width) 0
        o0.current_mode.width (List.mem_map.mpr ⟨o0, ho0, rfl⟩)
      simp only []
      omega
    · rcases List.mem_map.mp hmem with ⟨o, ho, hw⟩
      exact ⟨o, ho, hw.symm⟩
  · rcases foldl_max_mem (outs.map fun o => o.current_mode.height) 0 with h0 | hmem
    · refine ⟨o0, ho0, ?_⟩
      have hle := mem_le_foldl_max (outs.map fun o => o.current_mode.height) 0
        o0.current_mode.height (List.mem_map.mpr ⟨o0, ho0, rfl⟩)
      simp only []
      omega
    · rcases List.mem_map.mp hmem with ⟨o, ho, hw⟩
      exact ⟨o, ho, hw.symm⟩
  · intro outs' hp
    rw [get_resolutions_headD_eq]
    have hH := foldl_max_congr_mem (outs'.map fun o => o.current_mode.height)
      (outs.map fun o => o.current_mode.height)
      (fun x => (hp.map fun o => o.current_mode.height).mem_iff)
    have hW := foldl_max_congr_mem (outs'.map fun o => o.current_mode.width)
      (outs.map fun o => o.current_mode.width)
      (fun x => (hp.map fun o => o.current_mode.width).mem_iff)
    rw [hH, hW]

/-- Witness for `canonical_resolution_max` at a concrete two-output snapshot
(1600×1200 and 1920×1080, canonical 1920×1200). -/
theorem canonical_resolution_max_witness :
    (∀ o ∈ [(⟨"A", ⟨0, 0, 1600, 1200⟩, ⟨1600, 1200, 60⟩⟩ : SwayOutput),
            ⟨"B", ⟨0, 0, 1920, 1080⟩, ⟨1920, 1080, 60⟩⟩],
        o.current_mode.width ≤
          ((get_resolutions
              [⟨"A", ⟨0, 0, 1600, 1200⟩, ⟨1600, 1200, 60⟩⟩,
               ⟨"B", ⟨0, 0, 1920, 1080⟩, ⟨1920, 1080, 60⟩⟩]).headD ⟨0, 0⟩).width ∧
        o.current_mode.height ≤
          ((get_resolutions
              [⟨"A", ⟨0, 0, 1600, 1200⟩, ⟨1600, 1200, 60⟩⟩,
               ⟨"B", ⟨0, 0, 1920, 1080⟩, ⟨1920, 1080, 60⟩⟩]).headD ⟨0, 0⟩).height) ∧
    ((get_resolutions
        [⟨"B", ⟨0, 0, 1920, 1080⟩, ⟨1920, 1080, 60⟩⟩,
         ⟨"A", ⟨0, 0, 1600, 1200⟩, ⟨1600, 1200, 60⟩⟩]).headD ⟨0, 0⟩ =
      (get_resolutions
        [⟨"A", ⟨0, 0, 1600, 1200⟩, ⟨1600, 1200, 60⟩⟩,
         ⟨"B", ⟨0, 0, 1920, 1080⟩, ⟨1920, 1080, 60⟩⟩]).headD ⟨0, 0⟩) := by
  have hmain := canonical_resolution_max
    [⟨"A", ⟨0, 0, 1600, 1200⟩, ⟨1600, 1200, 60⟩⟩,
     ⟨"B", ⟨0, 0, 1920, 1080⟩, ⟨1920, 1080, 60⟩⟩] (by decide)
  refine ⟨hmain.1, hmain.2.2.2 _ ?_⟩
  decide

/-- Claim C5: a workspace is in the selector's result iff it is in the input,
is visible, its output is not screen-blacklisted, and its number is not
workspace-blacklisted. -/
theorem selector_membership (config : Config) (ws : List SwayWorkspace)
    (w : SwayWorkspace) :
    w ∈ get_valid_screens_for_recording config ws ↔
      (w ∈ ws ∧ w.visible = true ∧ w.output ∉ config.screen_blacklist ∧
        w.num ∉ config.workspace_blacklist) := by
  unfold get_valid_screens_for_recording
  rw [List.mem_mergeSort, List.mem_filter]
  unfold validWorkspace
  simp only [Bool.and_eq_true, Bool.not_eq_true', List.any_eq_false, beq_iff_eq]
  constructor
  · rintro ⟨hmem, ⟨hvis, hscr⟩, hnum⟩
    exact ⟨hmem, hvis, fun hc => by simpa using hscr _ hc,
      fun hc => by simpa using hnum _ hc⟩
  · rintro ⟨hmem, hvis, hscr, hnum⟩
    refine ⟨hmem, ⟨hvis, fun s hs => ?_⟩, fun n hn => ?_⟩
    · intro hc
      exact hscr (hc ▸ hs)
    · intro hc
      exact hnum (hc ▸ hn)

/-! ### Startup allocation table -/

/-- Claim C2 (amended): immediately after the startup initialization
(main.rs lines 399-403) the device-allocation table contains exactly one
entry — the canonical resolution bound to `devices_from`; the resolution
*list* is what contains every distinct snapshot resolution plus the
canonical one (other resolutions only get table entries lazily, on first
recording). -/
theorem startup_table_canonical_only (c0 : Config) (outs : List SwayOutput)
    (h : c0.outputs = []) :
    (startupInit c0 outs).outputs =
      [((get_resolutions outs).headD ⟨0, 0⟩, c0.devices_from)] ∧
    ∀ r : Resolution,
      r ∈ (startupInit c0 outs).resolutions ↔
        (r = (get_resolutions outs).headD ⟨0, 0⟩ ∨
          r ∈ outs.map fun o => ⟨o.current_mode.height, o.current_mode.width⟩) := by
  constructor
  · simp [startupInit, h, mapInsert]
  · intro r
    show r ∈ get_resolutions outs ↔ _
    rw [get_resolutions_headD]
    simp only [get_resolutions, mem_uniqueRes, List.mem_cons]

/-- Witness for `startup_table_canonical_only` at the two-output snapshot
1600×1200, 1920×1080 with `devices_from = 0`. -/
theorem startup_table_canonical_only_witness :
    (startupInit (mkInitialConfig 0 [] [] false)
        [⟨"A", ⟨0, 0, 1600, 1200⟩, ⟨1600, 1200, 60⟩⟩,
         ⟨"B", ⟨0, 0, 1920, 1080⟩, ⟨1920, 1080, 60⟩⟩]).outputs =
      [((get_resolutions
          [⟨"A", ⟨0, 0, 1600, 1200⟩, ⟨1600, 1200, 60⟩⟩,
           ⟨"B", ⟨0, 0, 1920, 1080⟩, ⟨1920, 1080, 60⟩⟩]).headD ⟨0, 0⟩, 0)] ∧
    ((⟨1200, 1600⟩ : Resolution) ∈
      (startupInit (mkInitialConfig 0 [] [] false)
        [⟨"A", ⟨0, 0, 1600, 1200⟩, ⟨1600, 1200, 60⟩⟩,
         ⟨"B", ⟨0, 0, 1920, 1080⟩, ⟨1920, 1080, 60⟩⟩]).resolutions ↔
      ((⟨1200, 1600⟩ : Resolution) =
          (get_resolutions
            [⟨"A", ⟨0, 0, 1600, 1200⟩, ⟨1600, 1200, 60⟩⟩,
             ⟨"B", ⟨0, 0, 1920, 1080⟩, ⟨1920, 1080, 60⟩⟩]).headD ⟨0, 0⟩ ∨
        (⟨1200, 1600⟩ : Resolution) ∈
          ([⟨"A", ⟨0, 0, 1600, 1200⟩, ⟨1600, 1200, 60⟩⟩,
            ⟨"B", ⟨0, 0, 1920, 1080⟩, ⟨1920, 1080, 60⟩⟩] : List SwayOutput).map
            fun o => (⟨o.current_mode.height, o.current_mode.width⟩ : Resolution))) := by
  have hmain := startup_table_canonical_only (mkInitialConfig 0 [] [] false)
    [⟨"A", ⟨0, 0, 1600, 1200⟩, ⟨1600, 1200, 60⟩⟩,
     ⟨"B", ⟨0, 0, 1920, 1080⟩, ⟨1920, 1080, 60⟩⟩] rfl
  exact ⟨hmain.1, hmain.2 ⟨1200, 1600⟩⟩

/-- Claim C2 counterexample: with the initial snapshot holding outputs at
1600×1200 and 1920×1080, the resolution 1600×1200 is a distinct snapshot
resolution, yet after the whole startup (initialization plus the first
pipeline, here the black one) it has no entry in the device-allocation
table. -/
theorem startup_table_missing_entry_cex :
    (⟨1200, 1600⟩ : Resolution) ∈
      [(⟨"A", ⟨0, 0, 1600, 1200⟩, ⟨1600, 1200, 60⟩⟩ : SwayOutput),
       ⟨"B", ⟨0, 0, 1920, 1080⟩, ⟨1920, 1080, 60⟩⟩].map
        (fun o => (⟨o.current_mode.height, o.current_mode.width⟩ : Resolution)) ∧
    (startup (mkInitialConfig 0 [] [] false)
        [⟨"A", ⟨0, 0, 1600, 1200⟩, ⟨1600, 1200, 60⟩⟩,
         ⟨"B", ⟨0, 0, 1920, 1080⟩, ⟨1920, 1080, 60⟩⟩] []).toOption.map
      (fun s => mapGet s.1.outputs ⟨1200, 1600⟩) = some none := by
  have hv : get_valid_screens_for_recording
      (startupInit (mkInitialConfig 0 [] [] false)
        [⟨"A", ⟨0, 0, 1600, 1200⟩, ⟨1600, 1200, 60⟩⟩,
         ⟨"B", ⟨0, 0, 1920, 1080⟩, ⟨1920, 1080, 60⟩⟩]) [] = [] := by
    simp [get_valid_screens_for_recording]
  have hstart : startup (mkInitialConfig 0 [] [] false)
      [⟨"A", ⟨0, 0, 1600, 1200⟩, ⟨1600, 1200, 60⟩⟩,
       ⟨"B", ⟨0, 0, 1920, 1080⟩, ⟨1920, 1080, 60⟩⟩] [] =
      .ok (stream_black (startupInit (mkInitialConfig 0 [] [] false)
        [⟨"A", ⟨0, 0, 1600, 1200⟩, ⟨1600, 1200, 60⟩⟩,
         ⟨"B", ⟨0, 0, 1920, 1080⟩, ⟨1920, 1080, 60⟩⟩])) := by
    simp only [startup]
    rw [hv]
  constructor
  · decide
  · rw [hstart]
    decide

/-! ### Device allocation: idempotence and strictly increasing indices -/

/-- Fold `allocate` over a list of resolutions (the successive first
encounters of new resolutions across `record_screen` calls), collecting the
returned indices. -/
def allocList (config : Config) : List Resolution → List Nat × Config
  | [] => ([], config)
  | r :: rs =>
      let ic := allocate config r
      let tail := allocList ic.2 rs
      (ic.1 :: tail.1, tail.2)

theorem allocate_known (c : Config) (r : Resolution) (i : Nat)
    (h : mapGet c.outputs r = some i) : allocate c r = (i, c) := by
  simp [allocate, h]

theorem allocate_fresh (c : Config) (r : Resolution)
    (h : mapGet c.outputs r = none) :
    allocate c r = (c.last_device_index + 1,
      { c with
          last_device_index := c.last_device_index + 1,
          outputs := mapInsert c.outputs r (c.last_device_index + 1) }) := by
  simp [allocate, h]

theorem allocList_fresh (rs : List Resolution) :
    ∀ c : Config,
      (∀ r ∈ rs, mapGet c.outputs r = none) →
      rs.Pairwise (· ≠ ·) →
      (allocList c rs).1 = List.range' (c.last_device_index + 1) rs.length := by
  induction rs with
  | nil => intro c _ _; rfl
  | cons r rs ih =>
      intro c hfresh hpw
      obtain ⟨hhead, htail⟩ := List.pairwise_cons.mp hpw
      have hr : mapGet c.outputs r = none := hfresh r (List.mem_cons_self r rs)
      simp only [allocList, allocate_fresh c r hr]
      have hfresh' : ∀ x ∈ rs,
          mapGet (mapInsert c.outputs r (c.last_device_index + 1)) x = none := by
        intro x hx
        rw [mapGet_mapInsert_ne _ _ _ _ (fun hh => hhead x hx hh.symm)]
        exact hfresh x (List.mem_cons_of_mem r hx)
      rw [ih _ hfresh' htail]
      rw [List.length_cons, List.range'_succ]

/-- Claim C4: `allocate` is idempotent (a second call with the same
resolution returns the same index and leaves the state unchanged), and from
the startup state (table holding exactly the canonical binding at
`devices_from`, counter at `devices_from`) allocating any list of pairwise
distinct non-canonical resolutions yields exactly the indices
`devices_from + 1, devices_from + 2, …` in order of first encounter
(`List.range'`), i.e. distinct and strictly increasing. -/
theorem allocate_idempotent_increasing :
    (∀ (c : Config) (r : Resolution),
        allocate (allocate c r).2 r = ((allocate c r).1, (allocate c r).2)) ∧
    (∀ (c : Config) (canon : Resolution) (rs : List Resolution),
        c.outputs = [(canon, c.devices_from)] →
        c.last_device_index = c.devices_from →
        rs.Pairwise (· ≠ ·) →
        (∀ r ∈ rs, r ≠ canon) →
        (allocList c rs).1 = List.range' (c.devices_from + 1) rs.length) := by
  constructor
  · intro c r
    cases hm : mapGet c.outputs r with
    | some i =>
        simp only [allocate_known c r i hm]
    | none =>
        simp only [allocate_fresh c r hm]
        exact allocate_known _ r _ (mapGet_mapInsert_self _ _ _)
  · intro c canon rs hout hlast hpw hcanon
    have hfresh : ∀ r ∈ rs, mapGet c.outputs r = none := by
      intro r hr
      have hne : ¬(canon = r) := fun hh => hcanon r hr hh.symm
      rw [hout]
      simp [mapGet, hne]
    rw [allocList_fresh rs c hfresh hpw, hlast]

/-- Witness for `allocate_idempotent_increasing`: idempotence at one concrete
state, and indices 1, 2 for two fresh distinct resolutions from the startup
state with `devices_from = 0` and canonical 1920×1200. -/
theorem allocate_idempotent_increasing_witness :
    (allocate
        (allocate ⟨"", 0, 0, [], [], false, [⟨1200, 1920⟩],
          [(⟨1200, 1920⟩, 0)]⟩ ⟨1080, 1920⟩).2 ⟨1080, 1920⟩ =
      ((allocate ⟨"", 0, 0, [], [], false, [⟨1200, 1920⟩],
          [(⟨1200, 1920⟩, 0)]⟩ ⟨1080, 1920⟩).1,
       (allocate ⟨"", 0, 0, [], [], false, [⟨1200, 1920⟩],
          [(⟨1200, 1920⟩, 0)]⟩ ⟨1080, 1920⟩).2)) ∧
    (allocList ⟨"", 0, 0, [], [], false, [⟨1200, 1920⟩],
        [(⟨1200, 1920⟩, 0)]⟩ [⟨1080, 1920⟩, ⟨1200, 1600⟩]).1 = [1, 2] := by
  constructor
  · exact allocate_idempotent_increasing.1 _ ⟨1080, 1920⟩
  · rw [allocate_idempotent_increasing.2
      ⟨"", 0, 0, [], [], false, [⟨1200, 1920⟩], [(⟨1200, 1920⟩, 0)]⟩
      ⟨1200, 1920⟩ [⟨1080, 1920⟩, ⟨1200, 1600⟩] rfl rfl (by decide) (by decide)]
    decide

/-- Claim C10: with an empty initial output snapshot the canonical resolution
is 0×0, the computed resolution list is exactly that single entry, and (there
being no valid workspace) startup starts the black pipeline at size `0x0`
writing into `/dev/video{devices_from}`. -/
theorem empty_snapshot_black (c0 : Config) (ws : List SwayWorkspace)
    (hv : get_valid_screens_for_recording (startupInit c0 []) ws = []) :
    get_resolutions [] = [⟨0, 0⟩] ∧
    (startupInit c0 []).resolutions = [⟨0, 0⟩] ∧
    startup c0 [] ws =
      .ok ({ startupInit c0 [] with current_output := "" },
        [⟨"ffmpeg",
          ["-i", "color=c=black:s=0x0:r=25/1", "-vcodec", "rawvideo",
           "-pix_fmt", "yuyv422", "-f", "v4l2",
           "/dev/video" ++ toString c0.devices_from]⟩]) := by
  refine ⟨rfl, rfl, ?_⟩
  have hstart : startup c0 [] ws = .ok (stream_black (startupInit c0 [])) := by
    simp only [startup]
    rw [hv]
  rw [hstart]
  refine congrArg Except.ok (Prod.ext rfl ?_)
  show [(⟨"ffmpeg",
      ["-i",
       "color=c=black:s=" ++ toString (0 : Nat) ++ "x" ++ toString (0 : Nat) ++
         ":r=25/1",
       "-vcodec", "rawvideo", "-pix_fmt", "yuyv422", "-f", "v4l2",
       "/dev/video" ++ toString c0.devices_from]⟩ : ProcSpec)] = _
  rw [show ("color=c=black:s=" ++ toString (0 : Nat) ++ "x" ++
      toString (0 : Nat) ++ ":r=25/1" : String) = "color=c=black:s=0x0:r=25/1"
    from by decide]

/-- Witness for `empty_snapshot_black` with `devices_from = 3` and no
workspaces. -/
theorem empty_snapshot_black_witness :
    startup (mkInitialConfig 3 [] [] false) [] [] =
      .ok ({ startupInit (mkInitialConfig 3 [] [] false) [] with
              current_output := "" },
        [⟨"ffmpeg",
          ["-i", "color=c=black:s=0x0:r=25/1", "-vcodec", "rawvideo",
           "-pix_fmt", "yuyv422", "-f", "v4l2",
           "/dev/video" ++ toString (mkInitialConfig 3 [] [] false).devices_from]⟩]) := by
  have hv : get_valid_screens_for_recording
      (startupInit (mkInitialConfig 3 [] [] false) []) [] = [] := by
    simp [get_valid_screens_for_recording]
  exact (empty_snapshot_black (mkInitialConfig 3 [] [] false) [] hv).2.2

/-! ### The selector's sort is a stable partition by `focused` -/

theorem focusedLE_trans (a b c : SwayWorkspace) (h1 : focusedLE a b)
    (h2 : focusedLE b c) : focusedLE a c := by
  cases ha : a.focused <;> cases hb : b.focused <;> cases hc : c.focused <;>
    simp_all [focusedLE]

theorem focusedLE_total (a b : SwayWorkspace) :
    focusedLE a b || focusedLE b a := by
  cases ha : a.focused <;> cases hb : b.focused <;> simp_all [focusedLE]

theorem pairwise_filter_append {α : Type} (p : α → Bool) :
    ∀ l : List α, l.Pairwise (fun a b => (p a || !p b) = true) →
      l = l.filter p ++ l.filter (fun a => !p a) := by
  intro l
  induction l with
  | nil => intro _; simp
  | cons x l ih =>
      intro hpw
      obtain ⟨hx, hl⟩ := List.pairwise_cons.mp hpw
      by_cases hp : p x
      · rw [List.filter_cons_of_pos (by simp [hp]),
          List.filter_cons_of_neg (by simp [hp]), List.cons_append]
        exact congrArg (x :: ·) (ih hl)
      · have hall : ∀ b ∈ l, p b = false := by
          intro b hb
          have hxb := hx b hb
          simp only [Bool.or_eq_true, Bool.not_eq_true'] at hxb
          rcases hxb with h | h
          · exact absurd h hp
          · exact h
        rw [List.filter_cons_of_neg (by simp [hp]),
          List.filter_cons_of_pos (by simp [hp])]
        have hfp : l.filter p = [] := by
          rw [List.filter_eq_nil_iff]
          intro b hb
          simp [hall b hb]
        have hfn : l.filter (fun a => !p a) = l := by
          rw [List.filter_eq_self]
          intro b hb
          simp [hall b hb]
        rw [hfp, hfn, List.nil_append]

/-- Claim C6: the selector's result is the stable partition of the filtered
workspace list by `focused` — all surviving focused workspaces first, in
input order, followed by all surviving unfocused ones, in input order — and
in particular, if any focused workspace survives filtering, it is the first
element of the result. -/
theorem selector_stable_partition (config : Config)
    (ws : List SwayWorkspace) :
    get_valid_screens_for_recording config ws =
      (ws.filter (validWorkspace config)).filter (fun w => w.focused) ++
        (ws.filter (validWorkspace config)).filter (fun w => !w.focused) ∧
    ((∃ x ∈ ws.filter (validWorkspace config), x.focused = true) →
      ∃ w t, get_valid_screens_for_recording config ws = w :: t ∧
        w.focused = true) := by
  have hmain : get_valid_screens_for_recording config ws =
      (ws.filter (validWorkspace config)).filter (fun w => w.focused) ++
        (ws.filter (validWorkspace config)).filter (fun w => !w.focused) := by
    unfold get_valid_screens_for_recording
    have hperm := List.mergeSort_perm (ws.filter (validWorkspace config))
      focusedLE
    have hsorted := List.sorted_mergeSort focusedLE_trans focusedLE_total
      (ws.filter (validWorkspace config))
    have hFpw : ((ws.filter (validWorkspace config)).filter
        (fun w => w.focused)).Pairwise (fun a b => focusedLE a b) := by
      apply List.pairwise_of_forall_mem_list
      intro a ha b hb
      have haf := (List.mem_filter.mp ha).2
      simp [focusedLE, haf]
    have hUpw : ((ws.filter (validWorkspace config)).filter
        (fun w => !w.focused)).Pairwise (fun a b => focusedLE a b) := by
      apply List.pairwise_of_forall_mem_list
      intro a ha b hb
      have hbf := (List.mem_filter.mp hb).2
      simp only [Bool.not_eq_true'] at hbf
      simp [focusedLE, hbf]
    have hFsub := List.sublist_mergeSort focusedLE_trans focusedLE_total hFpw
      (List.filter_sublist (ws.filter (validWorkspace config)))
    have hUsub := List.sublist_mergeSort focusedLE_trans focusedLE_total hUpw
      (List.filter_sublist (ws.filter (validWorkspace config)))
    have hFF : ((ws.filter (validWorkspace config)).filter
          (fun w => w.focused)).filter (fun w => w.focused) =
        (ws.filter (validWorkspace config)).filter (fun w => w.focused) := by
      rw [List.filter_eq_self]
      intro b hb
      exact (List.mem_filter.mp hb).2
    have hUU : ((ws.filter (validWorkspace config)).filter
          (fun w => !w.focused)).filter (fun w => !w.focused) =
        (ws.filter (validWorkspace config)).filter (fun w => !w.focused) := by
      rw [List.filter_eq_self]
      intro b hb
      exact (List.mem_filter.mp hb).2
    have h1 := List.Sublist.filter (fun w => w.focused) hFsub
    rw [hFF] at h1
    have h2 := hperm.filter (fun w => w.focused)
    have hSF : ((ws.filter (validWorkspace config)).mergeSort
          focusedLE).filter (fun w => w.focused) =
        (ws.filter (validWorkspace config)).filter (fun w => w.focused) :=
      (h1.eq_of_length h2.length_eq.symm).symm
    have h3 := List.Sublist.filter (fun w => !w.focused) hUsub
    rw [hUU] at h3
    have h4 := hperm.filter (fun w => !w.focused)
    have hSU : ((ws.filter (validWorkspace config)).mergeSort
          focusedLE).filter (fun w => !w.focused) =
        (ws.filter (validWorkspace config)).filter (fun w => !w.focused) :=
      (h3.eq_of_length h4.length_eq.symm).symm
    have hpart := pairwise_filter_append (fun w => w.focused)
      ((ws.filter (validWorkspace config)).mergeSort focusedLE)
      (by
        refine hsorted.imp ?_
        intro a b hab
        simpa [focusedLE] using hab)
    rw [hSF, hSU] at hpart
    exact hpart
  refine ⟨hmain, ?_⟩
  rintro ⟨x, hxK, hxf⟩
  have hxF : x ∈ (ws.filter (validWorkspace config)).filter
      (fun w => w.focused) := List.mem_filter.mpr ⟨hxK, hxf⟩
  cases hF : (ws.filter (validWorkspace config)).filter
      (fun w => w.focused) with
  | nil => rw [hF] at hxF; exact absurd hxF (List.not_mem_nil x)
  | cons w t =>
      refine ⟨w, t ++ (ws.filter (validWorkspace config)).filter
        (fun v => !v.focused), ?_, ?_⟩
      · rw [hmain, hF, List.cons_append]
      · have hwF : w ∈ (ws.filter (validWorkspace config)).filter
            (fun v => v.focused) := by
          rw [hF]; exact List.mem_cons_self w t
        exact (List.mem_filter.mp hwF).2

/-- Witness for `selector_stable_partition`: two visible workspaces, the
second focused; the selector returns the focused one first. -/
theorem selector_stable_partition_witness :
    get_valid_screens_for_recording (mkInitialConfig 0 [] [] false)
        [⟨"ws1", [], "HDMI-A-1", false, ⟨0, 0, 0, 0⟩, true, 1⟩,
         ⟨"ws2", [], "DP-1", true, ⟨0, 0, 0, 0⟩, true, 2⟩] =
      [⟨"ws2", [], "DP-1", true, ⟨0, 0, 0, 0⟩, true, 2⟩,
       ⟨"ws1", [], "HDMI-A-1", false, ⟨0, 0, 0, 0⟩, true, 1⟩] ∧
    (∃ w t,
      get_valid_screens_for_recording (mkInitialConfig 0 [] [] false)
          [⟨"ws1", [], "HDMI-A-1", false, ⟨0, 0, 0, 0⟩, true, 1⟩,
           ⟨"ws2", [], "DP-1", true, ⟨0, 0, 0, 0⟩, true, 2⟩] = w :: t ∧
        w.focused = true) := by
  have h := selector_stable_partition (mkInitialConfig 0 [] [] false)
    [⟨"ws1", [], "HDMI-A-1", false, ⟨0, 0, 0, 0⟩, true, 1⟩,
     ⟨"ws2", [], "DP-1", true, ⟨0, 0, 0, 0⟩, true, 2⟩]
  constructor
  · rw [h.1]
    decide
  · refine h.2 ⟨⟨"ws2", [], "DP-1", true, ⟨0, 0, 0, 0⟩, true, 2⟩, ?_, rfl⟩
    decide

/-! ### The event loop: no-op signals -/

/-- Claim C1 counterexample: with the black pipeline active (current target
"no valid output", `current_output = ""`) and a notification whose recomputed
target is also "no valid output" (empty workspace list), the event loop does
not short-circuit: it kills the owned process and spawns a fresh black
pipeline — one termination and one spawn, not zero. -/
theorem noop_signal_black_respawn_cex :
    get_valid_screens_for_recording
        ⟨"", 0, 0, [], [], false, [⟨0, 0⟩], [(⟨0, 0⟩, 0)]⟩ [] = [] ∧
    (⟨"", 0, 0, [], [], false, [⟨0, 0⟩], [(⟨0, 0⟩, 0)]⟩ : Config).current_output
      = "" ∧
    notifStep ⟨.ok [], .ok [], true, true⟩
        ⟨"", 0, 0, [], [], false, [⟨0, 0⟩], [(⟨0, 0⟩, 0)]⟩
        [⟨"ffmpeg",
          ["-i", "color=c=black:s=0x0:r=25/1", "-vcodec", "rawvideo",
           "-pix_fmt", "yuyv422", "-f", "v4l2", "/dev/video0"]⟩] =
      .ok (⟨"", 0, 0, [], [], false, [⟨0, 0⟩], [(⟨0, 0⟩, 0)]⟩,
        [⟨"ffmpeg",
          ["-i", "color=c=black:s=0x0:r=25/1", "-vcodec", "rawvideo",
           "-pix_fmt", "yuyv422", "-f", "v4l2", "/dev/video0"]⟩],
        [Effect.kill ⟨"ffmpeg",
          ["-i", "color=c=black:s=0x0:r=25/1", "-vcodec", "rawvideo",
           "-pix_fmt", "yuyv422", "-f", "v4l2", "/dev/video0"]⟩,
         Effect.spawn ⟨"ffmpeg",
          ["-i", "color=c=black:s=0x0:r=25/1", "-vcodec", "rawvideo",
           "-pix_fmt", "yuyv422", "-f", "v4l2", "/dev/video0"]⟩]) := by
  have hv : get_valid_screens_for_recording
      ⟨"", 0, 0, [], [], false, [⟨0, 0⟩], [(⟨0, 0⟩, 0)]⟩ [] = [] := by
    simp [get_valid_screens_for_recording]
  refine ⟨hv, rfl, ?_⟩
  simp only [notifStep]
  rw [hv]
  rfl

/-- Claim C1 (amended): if the selector returns at least one valid workspace
and the first one's output equals the pipeline supervisor's current target,
handling the notification performs zero process terminations and zero
process spawns and leaves the state unchanged.  (The original claim extended
this to the case where both targets are "no valid target"; the code instead
tears the pipeline down and respawns black there, see the counterexample.) -/
theorem noop_signal_same_output (env : Env) (config : Config)
    (recorders : List ProcSpec) (ws : List SwayWorkspace)
    (w : SwayWorkspace) (t : List SwayWorkspace)
    (hws : env.workspacesResult = .ok ws)
    (hv : get_valid_screens_for_recording config ws = w :: t)
    (ho : w.output = config.current_output) :
    notifStep env config recorders = .ok (config, recorders, []) := by
  simp only [notifStep, hws]
  rw [hv]
  simp [ho]

/-- Witness for `noop_signal_same_output`: one focused visible workspace on
output DP-1, which is already the recorded target. -/
theorem noop_signal_same_output_witness :
    notifStep
        ⟨.ok [⟨"ws2", [], "DP-1", true, ⟨0, 0, 0, 0⟩, true, 2⟩], .ok [],
          true, true⟩
        ⟨"DP-1", 0, 0, [], [], false, [⟨0, 0⟩], [(⟨0, 0⟩, 0)]⟩
        [⟨"wf-recorder", []⟩] =
      .ok (⟨"DP-1", 0, 0, [], [], false, [⟨0, 0⟩], [(⟨0, 0⟩, 0)]⟩,
        [⟨"wf-recorder", []⟩], []) := by
  refine noop_signal_same_output _ _ _
    [⟨"ws2", [], "DP-1", true, ⟨0, 0, 0, 0⟩, true, 2⟩]
    ⟨"ws2", [], "DP-1", true, ⟨0, 0, 0, 0⟩, true, 2⟩ [] rfl ?_ rfl
  unfold get_valid_screens_for_recording
  rw [show List.filter
      (validWorkspace ⟨"DP-1", 0, 0, [], [], false, [⟨0, 0⟩], [(⟨0, 0⟩, 0)]⟩)
      [⟨"ws2", [], "DP-1", true, ⟨0, 0, 0, 0⟩, true, 2⟩] =
      [⟨"ws2", [], "DP-1", true, ⟨0, 0, 0, 0⟩, true, 2⟩] from by decide]
  simp

/-! ### Recording pipeline shape: primary capture plus optional scaler -/

theorem allocate_devices_from (c : Config) (r : Resolution) :
    (allocate c r).2.devices_from = c.devices_from := by
  cases hm : mapGet c.outputs r
  · simp [allocate, hm]
  · simp [allocate, hm]

theorem allocate_resolutions (c : Config) (r : Resolution) :
    (allocate c r).2.resolutions = c.resolutions := by
  cases hm : mapGet c.outputs r
  · simp [allocate, hm]
  · simp [allocate, hm]

/-- Claim C9: recording output O spawns the scaler iff O's allocated device
differs from `devices_from`; the scaler reads `/dev/video{device}`, applies
`scaleFilter` at the canonical resolution (scale + centered pad + square
pixel aspect), and writes `/dev/video{devices_from}`; and when O's resolution
equals the canonical resolution (bound to `devices_from` in the table, as
established at startup), exactly one process — the primary capture — is
spawned. -/
theorem scaler_spawn_characterization (config : Config)
    (output : SwayOutput) :
    ((allocate config
        ⟨output.current_mode.height, output.current_mode.width⟩).1 ≠
          config.devices_from →
      (record_screen config output).2 =
        [⟨"wf-recorder",
          ["--muxer=v4l2", "--codec=rawvideo", "--pixel-format=yuyv422",
           "-o" ++ output.name,
           "--file=/dev/video" ++ toString (allocate config
             ⟨output.current_mode.height, output.current_mode.width⟩).1]⟩,
         ⟨"ffmpeg",
          ["-i", "/dev/video" ++ toString (allocate config
             ⟨output.current_mode.height, output.current_mode.width⟩).1,
           "-vcodec", "rawvideo", "-pix_fmt", "yuyv422", "-f", "v4l2",
           "-vf", scaleFilter (config.resolutions.headD ⟨0, 0⟩).width
             (config.resolutions.headD ⟨0, 0⟩).height,
           "/dev/video" ++ toString config.devices_from]⟩]) ∧
    ((allocate config
        ⟨output.current_mode.height, output.current_mode.width⟩).1 =
          config.devices_from →
      (record_screen config output).2 =
        [⟨"wf-recorder",
          ["--muxer=v4l2", "--codec=rawvideo", "--pixel-format=yuyv422",
           "-o" ++ output.name,
           "--file=/dev/video" ++ toString (allocate config
             ⟨output.current_mode.height, output.current_mode.width⟩).1]⟩]) ∧
    (mapGet config.outputs (config.resolutions.headD ⟨0, 0⟩) =
        some config.devices_from →
      (⟨output.current_mode.height, output.current_mode.width⟩ : Resolution) =
        config.resolutions.headD ⟨0, 0⟩ →
      (record_screen config output).2.length = 1) := by
  have hA : (allocate config
      ⟨output.current_mode.height, output.current_mode.width⟩).1 ≠
        config.devices_from →
      (record_screen config output).2 =
        [⟨"wf-recorder",
          ["--muxer=v4l2", "--codec=rawvideo", "--pixel-format=yuyv422",
           "-o" ++ output.name,
           "--file=/dev/video" ++ toString (allocate config
             ⟨output.current_mode.height, output.current_mode.width⟩).1]⟩,
         ⟨"ffmpeg",
          ["-i", "/dev/video" ++ toString (allocate config
             ⟨output.current_mode.height, output.current_mode.width⟩).1,
           "-vcodec", "rawvideo", "-pix_fmt", "yuyv422", "-f", "v4l2",
           "-vf", scaleFilter (config.resolutions.headD ⟨0, 0⟩).width
             (config.resolutions.headD ⟨0, 0⟩).height,
           "/dev/video" ++ toString config.devices_from]⟩] := by
    intro hne
    unfold record_screen
    simp only [allocate_devices_from, allocate_resolutions]
    rw [if_pos hne]
  have hB : (allocate config
      ⟨output.current_mode.height, output.current_mode.width⟩).1 =
        config.devices_from →
      (record_screen config output).2 =
        [⟨"wf-recorder",
          ["--muxer=v4l2", "--codec=rawvideo", "--pixel-format=yuyv422",
           "-o" ++ output.name,
           "--file=/dev/video" ++ toString (allocate config
             ⟨output.current_mode.height, output.current_mode.width⟩).1]⟩] := by
    intro heq
    unfold record_screen
    simp only [allocate_devices_from, allocate_resolutions]
    rw [if_neg (by simp [heq])]
  refine ⟨hA, hB, ?_⟩
  intro hcanon hres
  have hd : (allocate config
      ⟨output.current_mode.height, output.current_mode.width⟩).1 =
        config.devices_from := by
    rw [hres, allocate_known config (config.resolutions.headD ⟨0, 0⟩)
      config.devices_from hcanon]
  rw [hB hd]
  rfl

/-- Witness for `scaler_spawn_characterization`: canonical 1920×1080 bound to
device 0; a 640×480 output gets capture plus scaler, while the 1920×1080
output gets exactly the single capture process. -/
theorem scaler_spawn_characterization_witness :
    (record_screen ⟨"", 0, 0, [], [], false, [⟨1080, 1920⟩],
        [(⟨1080, 1920⟩, 0)]⟩ ⟨"C", ⟨0, 0, 640, 480⟩, ⟨640, 480, 60⟩⟩).2 =
      [⟨"wf-recorder",
        ["--muxer=v4l2", "--codec=rawvideo", "--pixel-format=yuyv422",
         "-o" ++ "C",
         "--file=/dev/video" ++ toString (allocate ⟨"", 0, 0, [], [], false,
           [⟨1080, 1920⟩], [(⟨1080, 1920⟩, 0)]⟩ ⟨480, 640⟩).1]⟩,
       ⟨"ffmpeg",
        ["-i", "/dev/video" ++ toString (allocate ⟨"", 0, 0, [], [], false,
           [⟨1080, 1920⟩], [(⟨1080, 1920⟩, 0)]⟩ ⟨480, 640⟩).1,
         "-vcodec", "rawvideo", "-pix_fmt", "yuyv422", "-f", "v4l2",
         "-vf", scaleFilter 1920 1080,
         "/dev/video" ++ toString (0 : Nat)]⟩] ∧
    (record_screen ⟨"", 0, 0, [], [], false, [⟨1080, 1920⟩],
        [(⟨1080, 1920⟩, 0)]⟩ ⟨"B", ⟨0, 0, 1920, 1080⟩,
          ⟨1920, 1080, 60⟩⟩).2.length = 1 := by
  constructor
  · exact (scaler_spawn_characterization
      ⟨"", 0, 0, [], [], false, [⟨1080, 1920⟩], [(⟨1080, 1920⟩, 0)]⟩
      ⟨"C", ⟨0, 0, 640, 480⟩, ⟨640, 480, 60⟩⟩).1 (by decide)
  · exact (scaler_spawn_characterization
      ⟨"", 0, 0, [], [], false, [⟨1080, 1920⟩], [(⟨1080, 1920⟩, 0)]⟩
      ⟨"B", ⟨0, 0, 1920, 1080⟩, ⟨1920, 1080, 60⟩⟩).2.2 rfl rfl

/-! ### Error handling: every failure aborts the controller -/

/-- Claim C8: each failure kind — compositor IPC failure (either query),
lookup failure of the target output name, spawn failure (black or recording
pipeline), and kill failure — makes the event-loop pass return the error
(the source panics / propagates, aborting the whole controller); none is
retried or degraded to the black-screen fallback. -/
theorem failure_aborts_controller (env : Env) (config : Config)
    (recorders : List ProcSpec) :
    (∀ e, env.workspacesResult = .error e →
      notifStep env config recorders = .error e) ∧
    (∀ e ws w t, env.workspacesResult = .ok ws → env.killOk = true →
      get_valid_screens_for_recording config ws = w :: t →
      w.output ≠ config.current_output →
      env.outputsResult = .error e →
      notifStep env config recorders = .error e) ∧
    (∀ ws w t outs, env.workspacesResult = .ok ws → env.killOk = true →
      get_valid_screens_for_recording config ws = w :: t →
      w.output ≠ config.current_output →
      env.outputsResult = .ok outs →
      get_output outs w.output = none →
      notifStep env config recorders = .error "Could not find output") ∧
    (∀ ws, env.workspacesResult = .ok ws → env.killOk = true →
      env.spawnOk = false →
      get_valid_screens_for_recording config ws = [] →
      notifStep env config recorders = .error "spawn failed: ffmpeg") ∧
    (∀ ws w t outs o, env.workspacesResult = .ok ws → env.killOk = true →
      env.spawnOk = false →
      get_valid_screens_for_recording config ws = w :: t →
      w.output ≠ config.current_output →
      env.outputsResult = .ok outs →
      get_output outs w.output = some o →
      notifStep env config recorders = .error "spawn failed: wf-recorder") ∧
    (∀ ws, env.workspacesResult = .ok ws → env.killOk = false →
      recorders ≠ [] →
      (get_valid_screens_for_recording config ws = [] ∨
        ∃ w t, get_valid_screens_for_recording config ws = w :: t ∧
          w.output ≠ config.current_output) →
      notifStep env config recorders = .error "kill failed") := by
  refine ⟨?_, ?_, ?_, ?_, ?_, ?_⟩
  · intro e hws
    simp [notifStep, hws]
  · intro e ws w t hws hk hv hne hout
    simp only [notifStep, hws]
    rw [hv]
    simp [hne, hk, hout]
  · intro ws w t outs hws hk hv hne hout hfind
    simp only [notifStep, hws]
    rw [hv]
    simp [hne, hk, hout, hfind]
  · intro ws hws hk hsp hv
    simp only [notifStep, hws]
    rw [hv]
    simp [hk, hsp]
  · intro ws w t outs o hws hk hsp hv hne hout hfind
    simp only [notifStep, hws]
    rw [hv]
    simp [hne, hk, hsp, hout, hfind]
  · intro ws hws hk hrec hvv
    rcases hvv with hv | ⟨w, t, hv, hne⟩
    · simp only [notifStep, hws]
      rw [hv]
      simp [hk, hrec]
    · simp only [notifStep, hws]
      rw [hv]
      simp [hne, hk, hrec]

/-- Witness for `failure_aborts_controller`: at concrete states, each of the
failure kinds produces the corresponding abort. -/
theorem failure_aborts_controller_witness :
    notifStep ⟨.error "Error running swaymsg", .ok [], true, true⟩
        ⟨"", 0, 0, [], [], false, [⟨0, 0⟩], [(⟨0, 0⟩, 0)]⟩ [] =
      .error "Error running swaymsg" ∧
    notifStep ⟨.ok [⟨"ws2", [], "DP-1", true, ⟨0, 0, 0, 0⟩, true, 2⟩],
          .error "Invalid json from get_outputs", true, true⟩
        ⟨"", 0, 0, [], [], false, [⟨0, 0⟩], [(⟨0, 0⟩, 0)]⟩ [] =
      .error "Invalid json from get_outputs" ∧
    notifStep ⟨.ok [⟨"ws2", [], "DP-1", true, ⟨0, 0, 0, 0⟩, true, 2⟩],
          .ok [], true, true⟩
        ⟨"", 0, 0, [], [], false, [⟨0, 0⟩], [(⟨0, 0⟩, 0)]⟩ [] =
      .error "Could not find output" ∧
    notifStep ⟨.ok [], .ok [], true, false⟩
        ⟨"", 0, 0, [], [], false, [⟨0, 0⟩], [(⟨0, 0⟩, 0)]⟩ [] =
      .error "spawn failed: ffmpeg" ∧
    notifStep ⟨.ok [⟨"ws2", [], "DP-1", true, ⟨0, 0, 0, 0⟩, true, 2⟩],
          .ok [⟨"DP-1", ⟨0, 0, 1920, 1080⟩, ⟨1920, 1080, 60⟩⟩], true, false⟩
        ⟨"", 0, 0, [], [], false, [⟨0, 0⟩], [(⟨0, 0⟩, 0)]⟩ [] =
      .error "spawn failed: wf-recorder" ∧
    notifStep ⟨.ok [], .ok [], false, true⟩
        ⟨"", 0, 0, [], [], false, [⟨0, 0⟩], [(⟨0, 0⟩, 0)]⟩
        [⟨"ffmpeg", []⟩] =
      .error "kill failed" := by
  have hvnil : get_valid_screens_for_recording
      ⟨"", 0, 0, [], [], false, [⟨0, 0⟩], [(⟨0, 0⟩, 0)]⟩ [] = [] := by
    simp [get_valid_screens_for_recording]
  have hvone : get_valid_screens_for_recording
      ⟨"", 0, 0, [], [], false, [⟨0, 0⟩], [(⟨0, 0⟩, 0)]⟩
      [⟨"ws2", [], "DP-1", true, ⟨0, 0, 0, 0⟩, true, 2⟩] =
      [⟨"ws2", [], "DP-1", true, ⟨0, 0, 0, 0⟩, true, 2⟩] := by
    unfold get_valid_screens_for_recording
    rw [show List.filter
        (validWorkspace ⟨"", 0, 0, [], [], false, [⟨0, 0⟩], [(⟨0, 0⟩, 0)]⟩)
        [⟨"ws2", [], "DP-1", true, ⟨0, 0, 0, 0⟩, true, 2⟩] =
        [⟨"ws2", [], "DP-1", true, ⟨0, 0, 0, 0⟩, true, 2⟩] from by decide]
    simp
  refine ⟨?_, ?_, ?_, ?_, ?_, ?_⟩
  · exact (failure_aborts_controller
      ⟨.error "Error running swaymsg", .ok [], true, true⟩
      ⟨"", 0, 0, [], [], false, [⟨0, 0⟩], [(⟨0, 0⟩, 0)]⟩ []).1
      "Error running swaymsg" rfl
  · exact (failure_aborts_controller _ _ _).2.1
      "Invalid json from get_outputs" _ _ [] rfl rfl hvone (by decide) rfl
  · exact (failure_aborts_controller _ _ _).2.2.1
      _ _ [] [] rfl rfl hvone (by decide) rfl rfl
  · exact (failure_aborts_controller _ _ _).2.2.2.1 [] rfl rfl rfl hvnil
  · exact (failure_aborts_controller _ _ _).2.2.2.2.1
      _ _ [] [⟨"DP-1", ⟨0, 0, 1920, 1080⟩, ⟨1920, 1080, 60⟩⟩]
      ⟨"DP-1", ⟨0, 0, 1920, 1080⟩, ⟨1920, 1080, 60⟩⟩
      rfl rfl rfl hvone (by decide) rfl rfl
  · exact (failure_aborts_controller _ _ _).2.2.2.2.2 [] rfl rfl
      (by decide) (Or.inl hvnil)

/-! ### The device-table invariant along the controller's reachable states -/

theorem allocate_preserves_binding (c : Config) (r r' : Resolution) (i : Nat)
    (hb : mapGet c.outputs r' = some i) :
    mapGet (allocate c r).2.outputs r' = some i := by
  cases hm : mapGet c.outputs r with
  | some d => simp [allocate, hm, hb]
  | none =>
      have hne : r' ≠ r := by
        intro hh
        rw [hh, hm] at hb
        exact Option.noConfusion hb
      simp only [allocate, hm]
      rw [mapGet_mapInsert_ne _ _ _ _ hne]
      exact hb

theorem record_screen_outputs (c : Config) (o : SwayOutput) :
    (record_screen c o).1.outputs =
      (allocate c ⟨o.current_mode.height, o.current_mode.width⟩).2.outputs := by
  unfold record_screen
  dsimp only
  split <;> rfl

theorem record_screen_resolutions (c : Config) (o : SwayOutput) :
    (record_screen c o).1.resolutions = c.resolutions := by
  unfold record_screen
  dsimp only
  split <;> exact allocate_resolutions c _

theorem record_screen_devices_from (c : Config) (o : SwayOutput) :
    (record_screen c o).1.devices_from = c.devices_from := by
  unfold record_screen
  dsimp only
  split <;> exact allocate_devices_from c _

theorem notifStep_config_cases (env : Env) (c : Config)
    (rs : List ProcSpec) (c' : Config) (ps' : List ProcSpec)
    (acts : List Effect)
    (h : notifStep env c rs = .ok (c', ps', acts)) :
    c' = c ∨ c' = (stream_black c).1 ∨ ∃ o, c' = (record_screen c o).1 := by
  unfold notifStep at h
  cases hws : env.workspacesResult with
  | error e =>
      rw [hws] at h
      exact absurd h (by simp)
  | ok ws =>
      rw [hws] at h
      dsimp only at h
      split at h
      · simp only [Except.ok.injEq, Prod.mk.injEq] at h
        exact Or.inl h.1.symm
      · split at h
        · exact absurd h (by simp)
        · split at h
          · split at h
            · simp only [Except.ok.injEq, Prod.mk.injEq] at h
              exact Or.inr (Or.inl h.1.symm)
            · exact absurd h (by simp)
          · split at h
            · exact absurd h (by simp)
            · split at h
              · exact absurd h (by simp)
              · split at h
                · simp only [Except.ok.injEq, Prod.mk.injEq] at h
                  exact Or.inr (Or.inr ⟨_, h.1.symm⟩)
                · exact absurd h (by simp)

theorem startup_canonical_binding (c0 : Config) (outs : List SwayOutput)
    (ws : List SwayWorkspace) (c : Config) (ps : List ProcSpec)
    (h : startup c0 outs ws = .ok (c, ps)) :
    mapGet c.outputs (c.resolutions.headD ⟨0, 0⟩) = some c.devices_from := by
  unfold startup at h
  dsimp only at h
  split at h
  · injection h with h'
    have hc : c = (stream_black (startupInit c0 outs)).1 :=
      (congrArg Prod.fst h').symm
    rw [hc]
    show mapGet
        (mapInsert c0.outputs ((get_resolutions outs).headD ⟨0, 0⟩)
          c0.devices_from)
        ((get_resolutions outs).headD ⟨0, 0⟩) = some c0.devices_from
    exact mapGet_mapInsert_self _ _ _
  · split at h
    · exact absurd h (by simp)
    · injection h with h'
      have hc : c = (record_screen (startupInit c0 outs) _).1 :=
        (congrArg Prod.fst h').symm
      rw [hc, record_screen_outputs, record_screen_resolutions,
        record_screen_devices_from]
      refine allocate_preserves_binding _ _ _ _ ?_
      show mapGet
          (mapInsert c0.outputs ((get_resolutions outs).headD ⟨0, 0⟩)
            c0.devices_from)
          ((get_resolutions outs).headD ⟨0, 0⟩) = some c0.devices_from
      exact mapGet_mapInsert_self _ _ _

/-- Claim C7: in every state reachable from startup the canonical resolution
(the head of the resolution list) is bound to `devices_from` in the
device-allocation table, and no existing binding is ever rebound to a
different index or removed by any event-loop transition. -/
theorem device_table_invariant :
    (∀ s : Config × List ProcSpec, Reachable s →
      mapGet s.1.outputs (s.1.resolutions.headD ⟨0, 0⟩) =
        some s.1.devices_from) ∧
    (∀ s t : Config × List ProcSpec, Step s t → ∀ r i,
      mapGet s.1.outputs r = some i → mapGet t.1.outputs r = some i) := by
  have hstep : ∀ s t : Config × List ProcSpec, Step s t → ∀ r i,
      mapGet s.1.outputs r = some i → mapGet t.1.outputs r = some i := by
    intro s t hs r i hb
    cases hs with
    | notif env s t acts h =>
        rcases notifStep_config_cases env s.1 s.2 t.1 t.2 acts h with
          h1 | h1 | ⟨o, h1⟩
        · rw [h1]; exact hb
        · rw [h1]; exact hb
        · rw [h1, record_screen_outputs]
          exact allocate_preserves_binding _ _ _ _ hb
  have hfields : ∀ s t : Config × List ProcSpec, Step s t →
      t.1.resolutions = s.1.resolutions ∧
      t.1.devices_from = s.1.devices_from := by
    intro s t hs
    cases hs with
    | notif env s t acts h =>
        rcases notifStep_config_cases env s.1 s.2 t.1 t.2 acts h with
          h1 | h1 | ⟨o, h1⟩
        · rw [h1]; exact ⟨rfl, rfl⟩
        · rw [h1]; exact ⟨rfl, rfl⟩
        · rw [h1, record_screen_resolutions, record_screen_devices_from]
          exact ⟨rfl, rfl⟩
  constructor
  · intro s hs
    induction hs with
    | start df sbl wbl vb outs ws s h =>
        exact startup_canonical_binding _ outs ws s.1 s.2 h
    | step s t hr hst ih =>
        obtain ⟨hres, hdev⟩ := hfields s t hst
        rw [hres, hdev]
        exact hstep s t hst _ _ ih
  · exact hstep

/-- Witness for `device_table_invariant`: the state reached by starting up
with no outputs and no workspaces has the canonical resolution 0×0 bound to
device 0, and a further black-respawn step preserves that binding. -/
theorem device_table_invariant_witness :
    mapGet
        (stream_black (startupInit (mkInitialConfig 0 [] [] false) [])).1.outputs
        ((stream_black
          (startupInit (mkInitialConfig 0 [] [] false) [])).1.resolutions.headD
            ⟨0, 0⟩) =
      some (stream_black
        (startupInit (mkInitialConfig 0 [] [] false) [])).1.devices_from ∧
    mapGet
        (stream_black ⟨"", 0, 0, [], [], false, [⟨0, 0⟩],
          [(⟨0, 0⟩, 0)]⟩).1.outputs ⟨0, 0⟩ = some 0 := by
  have hv : get_valid_screens_for_recording
      (startupInit (mkInitialConfig 0 [] [] false) []) [] = [] := by
    simp [get_valid_screens_for_recording]
  have hstart : startup (mkInitialConfig 0 [] [] false) [] [] =
      .ok (stream_black (startupInit (mkInitialConfig 0 [] [] false) [])) := by
    simp only [startup]
    rw [hv]
  have hreach : Reachable
      (stream_black (startupInit (mkInitialConfig 0 [] [] false) [])) :=
    Reachable.start 0 [] [] false [] [] _ hstart
  have hv2 : get_valid_screens_for_recording
      ⟨"", 0, 0, [], [], false, [⟨0, 0⟩], [(⟨0, 0⟩, 0)]⟩ [] = [] := by
    simp [get_valid_screens_for_recording]
  have hstepeq : notifStep ⟨.ok [], .ok [], true, true⟩
      ⟨"", 0, 0, [], [], false, [⟨0, 0⟩], [(⟨0, 0⟩, 0)]⟩ [⟨"ffmpeg", []⟩] =
      .ok ((stream_black ⟨"", 0, 0, [], [], false, [⟨0, 0⟩],
            [(⟨0, 0⟩, 0)]⟩).1,
        (stream_black ⟨"", 0, 0, [], [], false, [⟨0, 0⟩],
          [(⟨0, 0⟩, 0)]⟩).2,
        [Effect.kill ⟨"ffmpeg", []⟩] ++
          (stream_black ⟨"", 0, 0, [], [], false, [⟨0, 0⟩],
            [(⟨0, 0⟩, 0)]⟩).2.map Effect.spawn) := by
    simp only [notifStep]
    rw [hv2]
    rfl
  have hstep2 : Step
      (⟨"", 0, 0, [], [], false, [⟨0, 0⟩], [(⟨0, 0⟩, 0)]⟩, [⟨"ffmpeg", []⟩])
      ((stream_black ⟨"", 0, 0, [], [], false, [⟨0, 0⟩],
          [(⟨0, 0⟩, 0)]⟩).1,
        (stream_black ⟨"", 0, 0, [], [], false, [⟨0, 0⟩],
          [(⟨0, 0⟩, 0)]⟩).2) :=
    Step.notif ⟨.ok [], .ok [], true, true⟩ _ _ _ hstepeq
  exact ⟨device_table_invariant.1 _ hreach,
    device_table_invariant.2 _ _ hstep2 ⟨0, 0⟩ 0 (by decide)⟩
